import Mathlib

/-!
Verification of the NetworkSonification pipeline
(`Sonify_Weekly_Traffic_to_csv.ipynb`).

The notebook is a linear pandas pipeline: CSV ingestion, time-feature
derivation, weekly aggregation, proportional scaling/quantization, trend
isolation, and CSV export.  Each stage is embedded below as an executable
Lean function over rational-valued tables; numeric cells are modelled as
rationals, and timestamps as order-embedded values (column 0 of a raw row,
a `Date` record once parsed).
-/

namespace NetworkSonification

/-! ### Stage 1: ingestion (`glob` + read/concat loop)

A CSV export is one header line followed by data lines.  `pd.read_csv`
consumes the header line as the frame's column names, so the frame it
returns holds only the data lines; the frame's width (`shape[1]`) is the
number of header fields. -/

structure CSVFile where
  header : List String
  rows : List (List ℚ)
deriving DecidableEq

/-- `pd.read_csv(file)`: the data lines of the file; the header line has
become column metadata and is not part of the data. -/
def read_csv (f : CSVFile) : List (List ℚ) :=
  f.rows

/-- The notebook's ingestion loop, threading `header_flag` (initially
`False`).  For the first file the frame is kept whole and the flag is set;
for every later file `df_temp.iloc[1:]` removes the frame's first data
row.  Then, when the frame has more than two columns
(`df_temp.shape[1] > 2`), rows whose third cell (`df_temp.iloc[:, 2]`)
equals 0 are dropped.  The per-file frames are appended in discovery
order. -/
def ingest : Bool → List CSVFile → List (List ℚ)
  | _, [] => []
  | header_flag, f :: fs =>
    let df_temp := read_csv f
    let df_tail := if header_flag then df_temp.tail else df_temp
    let df_filtered :=
      if 2 < f.header.length then
        df_tail.filter (fun r => decide (r.getD 2 0 ≠ 0))
      else df_tail
    df_filtered ++ ingest true fs

/-- One insertion step of sorting by the `Time` column (cell 0). -/
def insertRow (r : List ℚ) : List (List ℚ) → List (List ℚ)
  | [] => [r]
  | s :: ss => if r.getD 0 0 ≤ s.getD 0 0 then r :: s :: ss else s :: insertRow r ss

/-- `df.sort_values('Time', ascending=True)`: sort the combined frame by
the `Time` column.  (pandas' default sort kind is not stable, so only the
resulting multiset and key order are specified; an insertion sort realises
them.) -/
def sort_values_Time (rows : List (List ℚ)) : List (List ℚ) :=
  rows.foldr insertRow []

/-- `load_and_clean`: the whole ingestion cell.  `pd.concat` applied to an
empty list of frames raises `ValueError: No objects to concatenate`, which
is the only failure path modelled here; `df_list` is empty exactly when no
file matched the glob pattern, since every iteration appends a frame.  The
final `df.columns = ['Time', 'in', 'out']` renames column metadata only and
does not change any data cell, so it has no counterpart on the row data. -/
def load_and_clean (files : List CSVFile) : Except String (List (List ℚ)) :=
  if files.isEmpty then Except.error "No objects to concatenate"
  else Except.ok (sort_values_Time (ingest false files))

/-! ### Stage 2: time-feature derivation

`pd.to_datetime(df['Time'], format='mixed')` parses the textual timestamps;
rows enter this stage with an already-parsed calendar date. -/

structure Date where
  year : ℕ
  month : ℕ
  day : ℕ
deriving DecidableEq

/-- A row of the combined daily table after timestamp parsing: `Time`,
`in`, `out` (the column `in` is a reserved word in Lean, hence the trailing
underscore). -/
structure RawDaily where
  time : Date
  in_ : ℚ
  out : ℚ
deriving DecidableEq

/-- Month offsets used by Sakamoto's weekday congruence. -/
def sakamotoTable : List ℕ :=
  [0, 3, 2, 5, 0, 3, 5, 1, 4, 6, 2, 4]

/-- Gregorian day-of-week code, 0 = Sunday .. 6 = Saturday (Sakamoto's
method). -/
def dayCode (dt : Date) : ℕ :=
  let y := if dt.month < 3 then dt.year - 1 else dt.year
  (y + y / 4 - y / 100 + y / 400 + sakamotoTable.getD (dt.month - 1) 0 + dt.day) % 7

/-- `Series.dt.day_name()` for the parsed date. -/
def day_name (dt : Date) : String :=
  match dayCode dt with
  | 0 => "Sunday"
  | 1 => "Monday"
  | 2 => "Tuesday"
  | 3 => "Wednesday"
  | 4 => "Thursday"
  | 5 => "Friday"
  | _ => "Saturday"

/-- Gregorian leap-year test. -/
def isLeapYear (y : ℕ) : Bool :=
  decide (y % 4 = 0 ∧ (y % 100 ≠ 0 ∨ y % 400 = 0))

/-- Days in the months strictly before a given month (common year). -/
def monthDaysBefore : List ℕ :=
  [0, 31, 59, 90, 120, 151, 181, 212, 243, 273, 304, 334]

/-- Ordinal day of the year, 1-based. -/
def dayOfYear (dt : Date) : ℕ :=
  monthDaysBefore.getD (dt.month - 1) 0
    + (if 2 < dt.month ∧ isLeapYear dt.year = true then 1 else 0) + dt.day

/-- ISO weekday, 1 = Monday .. 7 = Sunday. -/
def isoWeekday (dt : Date) : ℕ :=
  let c := dayCode dt
  if c = 0 then 7 else c

/-- Weekday code of 31 December of year `y` (helper for the ISO week
count). -/
def isoP (y : ℕ) : ℕ :=
  (y + y / 4 - y / 100 + y / 400) % 7

/-- Number of ISO weeks (52 or 53) in year `y`. -/
def weeksInISOYear (y : ℕ) : ℕ :=
  if isoP y = 4 ∨ isoP (y - 1) = 3 then 53 else 52

/-- `Series.dt.isocalendar().week`: ISO-8601 week number, 1..53. -/
def isoWeekNumber (dt : Date) : ℕ :=
  let w := (dayOfYear dt + 10 - isoWeekday dt) / 7
  if w < 1 then weeksInISOYear (dt.year - 1)
  else if weeksInISOYear dt.year < w then 1
  else w

/-- A row of the enriched daily table. -/
structure DailyRow where
  time : Date
  in_ : ℚ
  out : ℚ
  Week_Start : ℚ
  Month_Start : ℚ
  Year_Start : ℚ
  Week_Number : ℕ
  Year : ℕ
deriving DecidableEq

/-- The time-feature cell: `np.where(cond, 256, 0)` flag columns plus the
grouping keys.  `dt.is_month_start` holds exactly on the first calendar day
of a month, and `dt.is_year_start` exactly on 1 January. -/
def derive_time_features (r : RawDaily) : DailyRow :=
  { time := r.time
    in_ := r.in_
    out := r.out
    Week_Start := if day_name r.time = "Monday" then 256 else 0
    Month_Start := if r.time.day = 1 then 256 else 0
    Year_Start := if r.time.month = 1 ∧ r.time.day = 1 then 256 else 0
    Week_Number := isoWeekNumber r.time
    Year := r.time.year }

/-! ### Stage 3: weekly aggregation (`groupby(['Year', 'Week_Number'])`) -/

/-- Grouping key of a daily row. -/
def rkey (r : DailyRow) : ℕ × ℕ :=
  (r.Year, r.Week_Number)

/-- Ascending lexicographic order on (`Year`, `Week_Number`) keys, the
order in which `groupby` (with its default `sort=True`) emits groups. -/
def keyLt (a b : ℕ × ℕ) : Prop :=
  a.1 < b.1 ∨ (a.1 = b.1 ∧ a.2 < b.2)

instance (a b : ℕ × ℕ) : Decidable (keyLt a b) :=
  inferInstanceAs (Decidable (a.1 < b.1 ∨ (a.1 = b.1 ∧ a.2 < b.2)))

/-- Insert a key into a strictly ascending key list, keeping it strictly
ascending (duplicates collapse). -/
def insertKey (k : ℕ × ℕ) : List (ℕ × ℕ) → List (ℕ × ℕ)
  | [] => [k]
  | b :: t =>
    if k = b then b :: t
    else if keyLt k b then k :: b :: t
    else b :: insertKey k t

/-- The distinct (`Year`, `Week_Number`) keys of the table in ascending
order — the group keys `groupby` produces. -/
def groupKeys (rows : List DailyRow) : List (ℕ × ℕ) :=
  rows.foldr (fun r acc => insertKey (rkey r) acc) []

/-- `Series.max()` over a column, as a fold; pandas' maximum of an empty
column is undefined (NaN), rendered here as 0 — every use below is on a
nonempty column. -/
def listMax : List ℚ → ℚ
  | [] => 0
  | [x] => x
  | x :: y :: t => max x (listMax (y :: t))

/-- `Series.min()` over a column, with the same empty-column convention as
`listMax`. -/
def listMin : List ℚ → ℚ
  | [] => 0
  | [x] => x
  | x :: y :: t => min x (listMin (y :: t))

/-- A row of `weekly_df` as produced by the `groupby`/`agg` cell. -/
structure WeeklyRow where
  Year : ℕ
  Week_Number : ℕ
  in_mean : ℚ
  out_mean : ℚ
  Year_Start : ℚ
  Month_Start : ℚ
deriving DecidableEq

instance : Inhabited WeeklyRow :=
  ⟨{ Year := 0, Week_Number := 0, in_mean := 0, out_mean := 0, Year_Start := 0, Month_Start := 0 }⟩

/-- The aggregation cell: one output row per distinct (`Year`,
`Week_Number`) key in ascending key order, carrying the group's `in`/`out`
arithmetic means and the maxima of its `Year_Start`/`Month_Start` flags. -/
def aggregate_weekly (rows : List DailyRow) : List WeeklyRow :=
  (groupKeys rows).map fun k =>
    let g := rows.filter fun r => decide (rkey r = k)
    { Year := k.1
      Week_Number := k.2
      in_mean := (g.map (fun r => r.in_)).sum / (g.length : ℚ)
      out_mean := (g.map (fun r => r.out)).sum / (g.length : ℚ)
      Year_Start := listMax (g.map (fun r => r.Year_Start))
      Month_Start := listMax (g.map (fun r => r.Month_Start)) }

/-- Grouping key of a weekly row. -/
def wkey (w : WeeklyRow) : ℕ × ℕ :=
  (w.Year, w.Week_Number)

/-! ### Stage 4: proportional scaling and quantization -/

/-- `in_max = df['in'].max()` over the full daily table. -/
def in_max (df : List DailyRow) : ℚ :=
  listMax (df.map (fun r => r.in_))

/-- `out_max = df['out'].max()` over the full daily table. -/
def out_max (df : List DailyRow) : ℚ :=
  listMax (df.map (fun r => r.out))

/-- `scaling_factor = out_max / in_max`. -/
def scaling_factor (df : List DailyRow) : ℚ :=
  out_max df / in_max df

/-- `pd.cut(s, bins=48, labels=range(1, 49))` on one value of a series with
minimum `mn` and maximum `mx`: 48 equal-width right-closed bins over
[`mn`, `mx`], the leftmost edge lowered by 0.1 percent of the range so the
minimum falls into bin 1; a value in bin `k` receives label `k`.  For
`mn < v ≤ mx` the bin index is the ceiling of `48·(v−mn)/(mx−mn)`.  When
the series is constant pandas widens the range symmetrically around the
single value, which then sits on the right edge of bin 24. -/
def pdCut48 (mn mx v : ℚ) : ℚ :=
  if mn = mx then 24
  else if v ≤ mn then 1
  else ((⌈48 * (v - mn) / (mx - mn)⌉ : ℤ) : ℚ)

/-- The scaling cell's `out_quant_scaled`: the quantized weekly `out_mean`
series multiplied by the scaling factor.  The subsequent
`.round().astype(int).clip(lower=1)` line is commented out in the
notebook, so no rounding and no clipping is applied. -/
def out_quant_scaled (df : List DailyRow) (ws : List WeeklyRow) : List ℚ :=
  let s := ws.map (fun w => w.out_mean)
  s.map (fun v => pdCut48 (listMin s) (listMax s) v * scaling_factor df)

/-! ### Stage 5: trend isolation -/

/-- The mask `series > series.shift()`: the shifted series starts with a
missing value (`NaN`), and any comparison against it is `False`. -/
def shift_gt (xs : List ℚ) : List Bool :=
  List.zipWith
    (fun x p => match p with
      | none => false
      | some q => decide (q < x))
    xs (none :: xs.map some)

/-- The mask `series < series.shift()`. -/
def shift_lt (xs : List ℚ) : List Bool :=
  List.zipWith
    (fun x p => match p with
      | none => false
      | some q => decide (x < q))
    xs (none :: xs.map some)

/-- `series.where(mask, 0)`: keep the value where the mask holds, else 0. -/
def series_where (xs : List ℚ) (mask : List Bool) : List ℚ :=
  List.zipWith (fun x b => if b then x else 0) xs mask

/-- A `weekly_df` row after the trend cell added the four trend columns. -/
structure WeeklyTrendRow extends WeeklyRow where
  in_up : ℚ
  in_down : ℚ
  out_up : ℚ
  out_down : ℚ
deriving DecidableEq

instance : Inhabited WeeklyTrendRow :=
  ⟨{ toWeeklyRow := default, in_up := 0, in_down := 0, out_up := 0, out_down := 0 }⟩

/-- The trend cell: the four column-level `shift`/compare/`where`
assignments, reassembled row by row. -/
def split_trend (ws : List WeeklyRow) : List WeeklyTrendRow :=
  let ins := ws.map (fun w => w.in_mean)
  let outs := ws.map (fun w => w.out_mean)
  let in_up := series_where ins (shift_gt ins)
  let in_down := series_where ins (shift_lt ins)
  let out_up := series_where outs (shift_gt outs)
  let out_down := series_where outs (shift_lt outs)
  (List.range ws.length).map fun i =>
    { toWeeklyRow := ws.getD i default
      in_up := in_up.getD i 0
      in_down := in_down.getD i 0
      out_up := out_up.getD i 0
      out_down := out_down.getD i 0 }

/-! ### Stage 6: finalization and export -/

/-- The written file, as header names plus data cells. -/
structure CSVOut where
  header : List String
  data : List (List ℚ)
deriving DecidableEq

/-- `DataFrame.to_csv(..., index=index)`: with `index=True` pandas prepends
a row-number column (empty header field); with `index=False` it writes the
data columns only. -/
def to_csv (index : Bool) (header : List String) (rows : List (List ℚ)) : CSVOut :=
  if index then
    { header := "" :: header
      data := rows.enum.map (fun p => ((p.1 : ℚ) :: p.2)) }
  else
    { header := header, data := rows }

/-- `columns_to_keep` from the finalization cell. -/
def columns_to_keep : List String :=
  ["in", "out", "Month_Start", "Year_Start", "in_up", "in_down", "out_up", "out_down"]

/-- The finalization cell: rename `in_mean` to `in` and `out_mean` to
`out`, project to `columns_to_keep` in that order, and write with
`index=False`. -/
def finalize_and_write (weekly : List WeeklyTrendRow) : CSVOut :=
  to_csv false columns_to_keep
    (weekly.map fun w =>
      [w.in_mean, w.out_mean, w.Month_Start, w.Year_Start,
       w.in_up, w.in_down, w.out_up, w.out_down])

/-! ### Concrete tables used by the individual claims -/

/-- C1: first input file, identical header, one data row. -/
def c1_file1 : CSVFile :=
  ⟨["Time", "Traffic In", "Traffic Out"], [[1, 2, 3]]⟩

/-- C1: second input file, identical header, one data row (third cell
nonzero, so row filtering cannot explain any loss). -/
def c1_file2 : CSVFile :=
  ⟨["Time", "Traffic In", "Traffic Out"], [[4, 5, 6]]⟩

/-- C7: first input file. -/
def c7_file1 : CSVFile :=
  ⟨["Time", "Traffic In", "Traffic Out"], [[1, 2, 3]]⟩

/-- C7: second input file; its first data row carries the nonzero third
cell 0.0001 from the spec's own example. -/
def c7_file2 : CSVFile :=
  ⟨["Time", "Traffic In", "Traffic Out"], [[4, 5, 1/10000], [7, 8, 9]]⟩

/-- C3 and C6 dates are irrelevant to the scaled series; any date works. -/
def someDate : Date :=
  ⟨2024, 1, 1⟩

/-- C3: a daily table with `in` maximum 2 and `out` maximum 1, so the
scaling factor is 1/2. -/
def c3_df : List DailyRow :=
  [{ time := someDate, in_ := 2, out := 1, Week_Start := 256, Month_Start := 256,
     Year_Start := 256, Week_Number := 1, Year := 2024 }]

/-- C3: a weekly table whose `out_mean` series is [0, 48]. -/
def c3_ws : List WeeklyRow :=
  [{ Year := 2024, Week_Number := 1, in_mean := 0, out_mean := 0, Year_Start := 256, Month_Start := 256 },
   { Year := 2024, Week_Number := 2, in_mean := 0, out_mean := 48, Year_Start := 0, Month_Start := 0 }]

/-- C4 and C10: a weekly table whose mean series are [5, 5, 3]. -/
def c4_ws : List WeeklyRow :=
  [{ Year := 2024, Week_Number := 1, in_mean := 5, out_mean := 5, Year_Start := 256, Month_Start := 256 },
   { Year := 2024, Week_Number := 2, in_mean := 5, out_mean := 5, Year_Start := 0, Month_Start := 0 },
   { Year := 2024, Week_Number := 3, in_mean := 3, out_mean := 3, Year_Start := 0, Month_Start := 0 }]

/-- C5: an enriched daily table with two weeks; week (2024, 1) holds days
with `in` values 10, 20, 30 and one `Month_Start = 256` day. -/
def c5_rows : List DailyRow :=
  [{ time := ⟨2024, 1, 1⟩, in_ := 10, out := 100, Week_Start := 256, Month_Start := 256,
     Year_Start := 256, Week_Number := 1, Year := 2024 },
   { time := ⟨2024, 1, 2⟩, in_ := 20, out := 200, Week_Start := 0, Month_Start := 0,
     Year_Start := 0, Week_Number := 1, Year := 2024 },
   { time := ⟨2024, 1, 3⟩, in_ := 30, out := 300, Week_Start := 0, Month_Start := 0,
     Year_Start := 0, Week_Number := 1, Year := 2024 },
   { time := ⟨2024, 1, 8⟩, in_ := 40, out := 400, Week_Start := 256, Month_Start := 0,
     Year_Start := 0, Week_Number := 2, Year := 2024 }]

/-- C6: a daily table with `in` maximum 100 and `out` maximum 1000, the
spec's own scale-factor example. -/
def c6_df : List DailyRow :=
  [{ time := someDate, in_ := 100, out := 250, Week_Start := 256, Month_Start := 256,
     Year_Start := 256, Week_Number := 1, Year := 2024 },
   { time := ⟨2024, 1, 2⟩, in_ := 7, out := 1000, Week_Start := 0, Month_Start := 0,
     Year_Start := 0, Week_Number := 1, Year := 2024 }]

/-- C8: the raw daily row for 2024-01-01 (a Monday, month start, year
start). -/
def c8_jan1 : RawDaily :=
  ⟨⟨2024, 1, 1⟩, 10, 20⟩

/-- C8: the raw daily row for 2024-01-02 (a Tuesday, not a month or year
start). -/
def c8_jan2 : RawDaily :=
  ⟨⟨2024, 1, 2⟩, 10, 20⟩

/-- C9: a two-week weekly table with trend columns and distinct keys. -/
def c9_wt : List WeeklyTrendRow :=
  [{ toWeeklyRow := { Year := 2024, Week_Number := 1, in_mean := 5, out_mean := 7,
                      Year_Start := 256, Month_Start := 256 },
     in_up := 0, in_down := 0, out_up := 0, out_down := 0 },
   { toWeeklyRow := { Year := 2024, Week_Number := 2, in_mean := 6, out_mean := 4,
                      Year_Start := 0, Month_Start := 0 },
     in_up := 6, in_down := 0, out_up := 0, out_down := 4 }]

/-- C10: a weekly table whose mean series are [5, 5, 3]. -/
def c10_ws : List WeeklyRow :=
  [{ Year := 2024, Week_Number := 1, in_mean := 5, out_mean := 5, Year_Start := 256, Month_Start := 256 },
   { Year := 2024, Week_Number := 2, in_mean := 5, out_mean := 5, Year_Start := 0, Month_Start := 0 },
   { Year := 2024, Week_Number := 3, in_mean := 3, out_mean := 3, Year_Start := 0, Month_Start := 0 }]


theorem listMax_mem : ∀ (xs : List ℚ), xs ≠ [] → listMax xs ∈ xs := by
  intro xs
  match xs with
  | [] => intro h; exact absurd rfl h
  | [x] => intro _; simp [listMax]
  | x :: y :: t =>
    intro _
    rw [listMax]
    rcases max_choice x (listMax (y :: t)) with h | h
    · rw [h]; exact List.mem_cons_self x _
    · rw [h]; exact List.mem_cons_of_mem x (listMax_mem (y :: t) (by simp))

theorem le_listMax : ∀ (xs : List ℚ) (x : ℚ), x ∈ xs → x ≤ listMax xs := by
  intro xs
  match xs with
  | [] => intro x hx; simp at hx
  | [a] => intro x hx; simp at hx; simp [listMax, hx]
  | a :: b :: t =>
    intro x hx
    rw [listMax]
    rcases List.mem_cons.mp hx with h | h
    · rw [h]; exact le_max_left _ _
    · exact le_trans (le_listMax (b :: t) x h) (le_max_right _ _)

theorem listMin_mem : ∀ (xs : List ℚ), xs ≠ [] → listMin xs ∈ xs := by
  intro xs
  match xs with
  | [] => intro h; exact absurd rfl h
  | [x] => intro _; simp [listMin]
  | x :: y :: t =>
    intro _
    rw [listMin]
    rcases min_choice x (listMin (y :: t)) with h | h
    · rw [h]; exact List.mem_cons_self x _
    · rw [h]; exact List.mem_cons_of_mem x (listMin_mem (y :: t) (by simp))

theorem listMin_le : ∀ (xs : List ℚ) (x : ℚ), x ∈ xs → listMin xs ≤ x := by
  intro xs
  match xs with
  | [] => intro x hx; simp at hx
  | [a] => intro x hx; simp at hx; simp [listMin, hx]
  | a :: b :: t =>
    intro x hx
    rw [listMin]
    rcases List.mem_cons.mp hx with h | h
    · rw [h]; exact min_le_left _ _
    · exact le_trans (min_le_right _ _) (listMin_le (b :: t) x h)

theorem listMax_flag (xs : List ℚ) (hne : xs ≠ []) (hx : ∀ x ∈ xs, x = 0 ∨ x = 256) :
    (listMax xs = 256 ↔ 256 ∈ xs) ∧ (listMax xs = 0 ∨ listMax xs = 256) := by
  have hmem := listMax_mem xs hne
  have hcases := hx _ hmem
  refine ⟨⟨fun h => h ▸ hmem, fun h256 => ?_⟩, hcases⟩
  have hle := le_listMax xs 256 h256
  rcases hcases with h0 | h
  · rw [h0] at hle; norm_num at hle
  · exact h

theorem keyLt_trans {a b c : ℕ × ℕ} (h1 : keyLt a b) (h2 : keyLt b c) : keyLt a c := by
  obtain ⟨a1, a2⟩ := a
  obtain ⟨b1, b2⟩ := b
  obtain ⟨c1, c2⟩ := c
  simp only [keyLt] at *
  omega

theorem keyLt_total {a b : ℕ × ℕ} (hne : a ≠ b) : keyLt a b ∨ keyLt b a := by
  obtain ⟨a1, a2⟩ := a
  obtain ⟨b1, b2⟩ := b
  rw [Ne, Prod.mk.injEq, not_and_or] at hne
  simp only [keyLt]
  omega

theorem mem_insertKey (k a : ℕ × ℕ) : ∀ l : List (ℕ × ℕ), (a ∈ insertKey k l ↔ a = k ∨ a ∈ l) := by
  intro l
  induction l with
  | nil => simp [insertKey]
  | cons b t ih =>
    simp only [insertKey]
    by_cases hkb : k = b
    · subst hkb
      rw [if_pos rfl]
      simp only [List.mem_cons]
      tauto
    · rw [if_neg hkb]
      by_cases hlt : keyLt k b
      · rw [if_pos hlt]
        simp only [List.mem_cons]
      · rw [if_neg hlt]
        simp only [List.mem_cons, ih]
        tauto

theorem pairwise_insertKey (k : ℕ × ℕ) :
    ∀ l : List (ℕ × ℕ), l.Pairwise keyLt → (insertKey k l).Pairwise keyLt := by
  intro l
  induction l with
  | nil => intro _; simp [insertKey]
  | cons b t ih =>
    intro hp
    rcases List.pairwise_cons.mp hp with ⟨hb, ht⟩
    by_cases hkb : k = b
    · simpa [insertKey, if_pos hkb] using hp
    · by_cases hlt : keyLt k b
      · simp only [insertKey, if_neg hkb, if_pos hlt]
        refine List.pairwise_cons.mpr ⟨?_, hp⟩
        intro x hx
        rcases List.mem_cons.mp hx with rfl | hx
        · exact hlt
        · exact keyLt_trans hlt (hb x hx)
      · simp only [insertKey, if_neg hkb, if_neg hlt]
        refine List.pairwise_cons.mpr ⟨?_, ih ht⟩
        intro x hx
        rcases (mem_insertKey k x t).mp hx with rfl | hx
        · exact (keyLt_total hkb).resolve_left hlt
        · exact hb x hx

theorem mem_groupKeys (rows : List DailyRow) (k : ℕ × ℕ) :
    k ∈ groupKeys rows ↔ ∃ r ∈ rows, rkey r = k := by
  induction rows with
  | nil => simp [groupKeys]
  | cons r t ih =>
    simp only [groupKeys, List.foldr_cons] at *
    rw [mem_insertKey, ih]
    constructor
    · rintro (rfl | ⟨s, hs, rfl⟩)
      · exact ⟨r, List.mem_cons_self _ _, rfl⟩
      · exact ⟨s, List.mem_cons_of_mem _ hs, rfl⟩
    · rintro ⟨s, hs, rfl⟩
      rcases List.mem_cons.mp hs with rfl | hs
      · exact Or.inl rfl
      · exact Or.inr ⟨s, hs, rfl⟩

theorem pairwise_groupKeys (rows : List DailyRow) : (groupKeys rows).Pairwise keyLt := by
  induction rows with
  | nil => simp [groupKeys]
  | cons r t ih => exact pairwise_insertKey _ _ ih

theorem agg_map_wkey (rows : List DailyRow) :
    (aggregate_weekly rows).map wkey = groupKeys rows := by
  unfold aggregate_weekly
  rw [List.map_map]
  exact List.map_id'' (fun k => rfl) _

/-- Claim C5: weekly aggregation yields one row per distinct (Year,
Week_Number) pair, in ascending key order, with arithmetic means for
`in_mean`/`out_mean` and flag maxima (256 exactly when some day of the
group carries the flag). -/
theorem c5_weekly_aggregation (rows : List DailyRow)
    (hY : ∀ r ∈ rows, r.Year_Start = 0 ∨ r.Year_Start = 256)
    (hM : ∀ r ∈ rows, r.Month_Start = 0 ∨ r.Month_Start = 256) :
    ((aggregate_weekly rows).map wkey).Pairwise keyLt
    ∧ (∀ k : ℕ × ℕ, k ∈ (aggregate_weekly rows).map wkey ↔ ∃ r ∈ rows, rkey r = k)
    ∧ (∀ w ∈ aggregate_weekly rows,
        w.in_mean = ((rows.filter fun r => decide (rkey r = wkey w)).map (fun r => r.in_)).sum
            / (((rows.filter fun r => decide (rkey r = wkey w)).length : ℚ))
        ∧ w.out_mean = ((rows.filter fun r => decide (rkey r = wkey w)).map (fun r => r.out)).sum
            / (((rows.filter fun r => decide (rkey r = wkey w)).length : ℚ))
        ∧ (w.Year_Start = 256 ↔ ∃ r ∈ rows, rkey r = wkey w ∧ r.Year_Start = 256)
        ∧ (w.Year_Start = 0 ∨ w.Year_Start = 256)
        ∧ (w.Month_Start = 256 ↔ ∃ r ∈ rows, rkey r = wkey w ∧ r.Month_Start = 256)
        ∧ (w.Month_Start = 0 ∨ w.Month_Start = 256)) := by
  refine ⟨?_, ?_, ?_⟩
  · rw [agg_map_wkey]
    exact pairwise_groupKeys rows
  · intro k
    rw [agg_map_wkey]
    exact mem_groupKeys rows k
  · intro w hw
    unfold aggregate_weekly at hw
    rcases List.mem_map.mp hw with ⟨k, hk, rfl⟩
    have hwk : ∀ r : DailyRow, (decide (rkey r = k) = true) ↔ rkey r = k := by
      intro r; simp
    rcases (mem_groupKeys rows k).mp hk with ⟨r0, hr0, hr0k⟩
    have hr0g : r0 ∈ rows.filter fun r => decide (rkey r = k) :=
      List.mem_filter.mpr ⟨hr0, by simp [hr0k]⟩
    have hgne : (rows.filter fun r => decide (rkey r = k)) ≠ [] :=
      List.ne_nil_of_mem hr0g
    have hYmap : ∀ x ∈ ((rows.filter fun r => decide (rkey r = k)).map fun r => r.Year_Start),
        x = 0 ∨ x = 256 := by
      intro x hx
      rcases List.mem_map.mp hx with ⟨s, hs, rfl⟩
      exact hY s (List.mem_filter.mp hs).1
    have hMmap : ∀ x ∈ ((rows.filter fun r => decide (rkey r = k)).map fun r => r.Month_Start),
        x = 0 ∨ x = 256 := by
      intro x hx
      rcases List.mem_map.mp hx with ⟨s, hs, rfl⟩
      exact hM s (List.mem_filter.mp hs).1
    have hYne : ((rows.filter fun r => decide (rkey r = k)).map fun r => r.Year_Start) ≠ [] := by
      simpa using hgne
    have hMne : ((rows.filter fun r => decide (rkey r = k)).map fun r => r.Month_Start) ≠ [] := by
      simpa using hgne
    have hYflag := listMax_flag _ hYne hYmap
    have hMflag := listMax_flag _ hMne hMmap
    have hmemY : (256 ∈ ((rows.filter fun r => decide (rkey r = k)).map fun r => r.Year_Start))
        ↔ ∃ r ∈ rows, rkey r = k ∧ r.Year_Start = 256 := by
      rw [List.mem_map]
      constructor
      · rintro ⟨s, hs, hs256⟩
        rcases List.mem_filter.mp hs with ⟨hsm, hsk⟩
        exact ⟨s, hsm, by simpa using hsk, hs256⟩
      · rintro ⟨s, hsm, hsk, hs256⟩
        exact ⟨s, List.mem_filter.mpr ⟨hsm, by simp [hsk]⟩, hs256⟩
    have hmemM : (256 ∈ ((rows.filter fun r => decide (rkey r = k)).map fun r => r.Month_Start))
        ↔ ∃ r ∈ rows, rkey r = k ∧ r.Month_Start = 256 := by
      rw [List.mem_map]
      constructor
      · rintro ⟨s, hs, hs256⟩
        rcases List.mem_filter.mp hs with ⟨hsm, hsk⟩
        exact ⟨s, hsm, by simpa using hsk, hs256⟩
      · rintro ⟨s, hsm, hsk, hs256⟩
        exact ⟨s, List.mem_filter.mpr ⟨hsm, by simp [hsk]⟩, hs256⟩
    refine ⟨rfl, rfl, ?_, hYflag.2, ?_, hMflag.2⟩
    · exact hYflag.1.trans hmemY
    · exact hMflag.1.trans hmemM

theorem zipWith_same_fuse {α β γ δ : Type} (f : α → β → γ) (g : α → δ → β) :
    ∀ (as : List α) (bs : List δ),
      List.zipWith f as (List.zipWith g as bs) = List.zipWith (fun a b => f a (g a b)) as bs := by
  intro as
  induction as with
  | nil => intro bs; simp
  | cons a t ih =>
    intro bs
    cases bs with
    | nil => simp
    | cons b bs => simp [ih bs]

theorem up_series_getD (xs : List ℚ) (i : ℕ) (hi : i < xs.length) :
    (series_where xs (shift_gt xs)).getD i 0 =
      if 0 < i ∧ xs.getD (i - 1) 0 < xs.getD i 0 then xs.getD i 0 else 0 := by
  unfold series_where shift_gt
  rw [zipWith_same_fuse]
  rw [List.getD_eq_getElem _ _ (by simpa using hi)]
  rw [List.getElem_zipWith]
  cases i with
  | zero =>
    simp
  | succ j =>
    have hj : j < xs.length := Nat.lt_of_succ_lt hi
    have hb : j + 1 < (none :: xs.map some).length := by simp; omega
    have h1 : (none :: xs.map some)[j + 1] = some xs[j] := by simp
    rw [h1]
    simp only [Nat.succ_sub_one]
    simp [List.getD_eq_getElem, hj, hi]

theorem down_series_getD (xs : List ℚ) (i : ℕ) (hi : i < xs.length) :
    (series_where xs (shift_lt xs)).getD i 0 =
      if 0 < i ∧ xs.getD i 0 < xs.getD (i - 1) 0 then xs.getD i 0 else 0 := by
  unfold series_where shift_lt
  rw [zipWith_same_fuse]
  rw [List.getD_eq_getElem _ _ (by simpa using hi)]
  rw [List.getElem_zipWith]
  cases i with
  | zero =>
    simp
  | succ j =>
    have hj : j < xs.length := Nat.lt_of_succ_lt hi
    have hb : j + 1 < (none :: xs.map some).length := by simp; omega
    have h1 : (none :: xs.map some)[j + 1] = some xs[j] := by simp
    rw [h1]
    simp only [Nat.succ_sub_one]
    simp [List.getD_eq_getElem, hj, hi]

theorem getD_map_col (ws : List WeeklyRow) (f : WeeklyRow → ℚ) (i : ℕ) (hi : i < ws.length) :
    (ws.map f).getD i 0 = f (ws.getD i default) := by
  rw [List.getD_eq_getElem _ _ (by simpa using hi), List.getD_eq_getElem _ _ hi, List.getElem_map]

theorem split_trend_getD (ws : List WeeklyRow) (i : ℕ) (hi : i < ws.length) :
    (split_trend ws).getD i default =
      { toWeeklyRow := ws.getD i default
        in_up := (series_where (ws.map fun w => w.in_mean)
          (shift_gt (ws.map fun w => w.in_mean))).getD i 0
        in_down := (series_where (ws.map fun w => w.in_mean)
          (shift_lt (ws.map fun w => w.in_mean))).getD i 0
        out_up := (series_where (ws.map fun w => w.out_mean)
          (shift_gt (ws.map fun w => w.out_mean))).getD i 0
        out_down := (series_where (ws.map fun w => w.out_mean)
          (shift_lt (ws.map fun w => w.out_mean))).getD i 0 } := by
  unfold split_trend
  have hb : i < ((List.range ws.length).map (fun i =>
      ({ toWeeklyRow := ws.getD i default
         in_up := (series_where (ws.map fun w => w.in_mean)
           (shift_gt (ws.map fun w => w.in_mean))).getD i 0
         in_down := (series_where (ws.map fun w => w.in_mean)
           (shift_lt (ws.map fun w => w.in_mean))).getD i 0
         out_up := (series_where (ws.map fun w => w.out_mean)
           (shift_gt (ws.map fun w => w.out_mean))).getD i 0
         out_down := (series_where (ws.map fun w => w.out_mean)
           (shift_lt (ws.map fun w => w.out_mean))).getD i 0 } : WeeklyTrendRow))).length := by
    simpa using hi
  rw [List.getD_eq_getElem _ _ hb, List.getElem_map, List.getElem_range]

/-- Claim C4: for both mean columns, the `_up` entry of row `i` is the
row's value when it strictly exceeds the previous row's value and 0
otherwise, and symmetrically for `_down`; the first row gets 0 in both. -/
theorem c4_trend_isolation (ws : List WeeklyRow) (i : ℕ) (hi : i < ws.length) :
    (((split_trend ws).getD i default).in_up =
      if 0 < i ∧ (ws.getD (i - 1) default).in_mean < (ws.getD i default).in_mean
      then (ws.getD i default).in_mean else 0)
    ∧ (((split_trend ws).getD i default).in_down =
      if 0 < i ∧ (ws.getD i default).in_mean < (ws.getD (i - 1) default).in_mean
      then (ws.getD i default).in_mean else 0)
    ∧ (((split_trend ws).getD i default).out_up =
      if 0 < i ∧ (ws.getD (i - 1) default).out_mean < (ws.getD i default).out_mean
      then (ws.getD i default).out_mean else 0)
    ∧ (((split_trend ws).getD i default).out_down =
      if 0 < i ∧ (ws.getD i default).out_mean < (ws.getD (i - 1) default).out_mean
      then (ws.getD i default).out_mean else 0) := by
  have hi1 : i - 1 < ws.length := by omega
  have hlen : i < (ws.map fun w => w.in_mean).length := by simpa using hi
  have hlen2 : i < (ws.map fun w => w.out_mean).length := by simpa using hi
  rw [split_trend_getD ws i hi]
  dsimp only
  refine ⟨?_, ?_, ?_, ?_⟩
  · rw [up_series_getD _ i hlen]
    simp [getD_map_col _ _ i hi, getD_map_col _ _ (i - 1) hi1, List.getElem?_eq_getElem, hi, hi1]
  · rw [down_series_getD _ i hlen]
    simp [getD_map_col _ _ i hi, getD_map_col _ _ (i - 1) hi1, List.getElem?_eq_getElem, hi, hi1]
  · rw [up_series_getD _ i hlen2]
    simp [getD_map_col _ _ i hi, getD_map_col _ _ (i - 1) hi1, List.getElem?_eq_getElem, hi, hi1]
  · rw [down_series_getD _ i hlen2]
    simp [getD_map_col _ _ i hi, getD_map_col _ _ (i - 1) hi1, List.getElem?_eq_getElem, hi, hi1]

/-- Claim C10: a week is never marked both increasing and decreasing for
the same series. -/
theorem c10_up_down_exclusive (ws : List WeeklyRow) (i : ℕ) (hi : i < ws.length) :
    (((split_trend ws).getD i default).in_up = 0 ∨ ((split_trend ws).getD i default).in_down = 0)
    ∧ (((split_trend ws).getD i default).out_up = 0
       ∨ ((split_trend ws).getD i default).out_down = 0) := by
  have hi1 : i - 1 < ws.length := by omega
  have hlen : i < (ws.map fun w => w.in_mean).length := by simpa using hi
  have hlen2 : i < (ws.map fun w => w.out_mean).length := by simpa using hi
  rw [split_trend_getD ws i hi]
  dsimp only
  constructor
  · rw [up_series_getD _ i hlen, down_series_getD _ i hlen]
    by_cases h : 0 < i ∧ ((ws.map fun w => w.in_mean).getD (i - 1) 0)
        < ((ws.map fun w => w.in_mean).getD i 0)
    · right
      rw [if_neg]
      rintro ⟨-, habs⟩
      exact absurd h.2 (lt_asymm habs)
    · left
      rw [if_neg h]
  · rw [up_series_getD _ i hlen2, down_series_getD _ i hlen2]
    by_cases h : 0 < i ∧ ((ws.map fun w => w.out_mean).getD (i - 1) 0)
        < ((ws.map fun w => w.out_mean).getD i 0)
    · right
      rw [if_neg]
      rintro ⟨-, habs⟩
      exact absurd h.2 (lt_asymm habs)
    · left
      rw [if_neg h]

theorem pdCut48_bounds (mn mx u : ℚ) (h2 : u ≤ mx) :
    1 ≤ pdCut48 mn mx u ∧ pdCut48 mn mx u ≤ 48 := by
  unfold pdCut48
  by_cases heq : mn = mx
  · rw [if_pos heq]
    norm_num
  · rw [if_neg heq]
    by_cases hle : u ≤ mn
    · rw [if_pos hle]
      norm_num
    · rw [if_neg hle]
      have hmn : mn < u := lt_of_not_le hle
      have hmx : mn < mx := lt_of_lt_of_le hmn h2
      have hden : (0 : ℚ) < mx - mn := by linarith
      constructor
      · have hpos : (0 : ℚ) < 48 * (u - mn) / (mx - mn) := by
          apply div_pos _ hden
          linarith
        have hceil : 0 < ⌈48 * (u - mn) / (mx - mn)⌉ := Int.ceil_pos.mpr hpos
        exact_mod_cast hceil
      · have hle48 : 48 * (u - mn) / (mx - mn) ≤ 48 := by
          rw [div_le_iff₀ hden]
          linarith
        have hceil : ⌈48 * (u - mn) / (mx - mn)⌉ ≤ 48 := Int.ceil_le.mpr (by exact_mod_cast hle48)
        exact_mod_cast hceil

/-- Claim C3 (amended): the scaled quantized series is the 48-bin
quantization of the weekly `out_mean` series times the scaling factor,
with no rounding and no clipping applied; the quantization labels lie in
1..48, so with positive daily maxima every value is strictly positive (0
never appears), but values below 1 and non-integral values can occur. -/
theorem c3_scaled_quantization (df : List DailyRow) (ws : List WeeklyRow)
    (hin : 0 < in_max df) (hout : 0 < out_max df) :
    ∀ v ∈ out_quant_scaled df ws,
      ∃ u ∈ ws.map (fun w => w.out_mean),
        v = pdCut48 (listMin (ws.map fun w => w.out_mean)) (listMax (ws.map fun w => w.out_mean)) u
              * scaling_factor df
        ∧ 1 ≤ pdCut48 (listMin (ws.map fun w => w.out_mean))
              (listMax (ws.map fun w => w.out_mean)) u
        ∧ pdCut48 (listMin (ws.map fun w => w.out_mean))
              (listMax (ws.map fun w => w.out_mean)) u ≤ 48
        ∧ 0 < v := by
  intro v hv
  unfold out_quant_scaled at hv
  rcases List.mem_map.mp hv with ⟨u, hu, rfl⟩
  have hmx : u ≤ listMax (ws.map fun w => w.out_mean) := le_listMax _ u hu
  have hbounds := pdCut48_bounds (listMin (ws.map fun w => w.out_mean)) _ u hmx
  have hsf : 0 < scaling_factor df := div_pos hout hin
  refine ⟨u, hu, rfl, hbounds.1, hbounds.2, ?_⟩
  exact mul_pos (lt_of_lt_of_le one_pos hbounds.1) hsf

/-- Claim C6: the scaling factor is the maximum of the daily `out` column
divided by the maximum of the daily `in` column, both taken over the whole
daily table; on a table with daily maxima 100 and 1000 it is 10. -/
theorem c6_scaling_factor (df : List DailyRow) (hne : df ≠ []) :
    (∃ M, M ∈ df.map (fun r => r.out) ∧ (∀ r ∈ df, r.out ≤ M)
      ∧ ∃ N, N ∈ df.map (fun r => r.in_) ∧ (∀ r ∈ df, r.in_ ≤ N)
      ∧ scaling_factor df = M / N)
    ∧ scaling_factor c6_df = 10 := by
  constructor
  · have hone : df.map (fun r => r.out) ≠ [] := by simpa using hne
    have htwo : df.map (fun r => r.in_) ≠ [] := by simpa using hne
    refine ⟨out_max df, listMax_mem _ hone, ?_, in_max df, listMax_mem _ htwo, ?_, rfl⟩
    · intro r hr
      exact le_listMax _ _ (List.mem_map_of_mem _ hr)
    · intro r hr
      exact le_listMax _ _ (List.mem_map_of_mem _ hr)
  · have h : scaling_factor c6_df = (1000 : ℚ) / 100 := rfl
    rw [h]
    norm_num

/-- C3 counterexample: with scaling factor 1/2 the first scaled quantized
value is 1/2, which is neither an integer nor at least 1 — so the series is
not the rounded, minimum-1-clipped sequence the claim describes. -/
theorem c3_counterexample :
    ((1 : ℚ)/2) ∈ out_quant_scaled c3_df c3_ws ∧ ((1 : ℚ)/2) < 1 := by
  constructor
  · have hlist : out_quant_scaled c3_df c3_ws
        = [pdCut48 (listMin [0, 48]) (listMax [0, 48]) 0 * scaling_factor c3_df,
           pdCut48 (listMin [0, 48]) (listMax [0, 48]) 48 * scaling_factor c3_df] := rfl
    have hcut : pdCut48 (listMin [(0 : ℚ), 48]) (listMax [(0 : ℚ), 48]) 0 = 1 := rfl
    have hsf : scaling_factor c3_df = (1 : ℚ)/2 := rfl
    rw [hlist, hcut, hsf, one_mul]
    exact List.mem_cons_self _ _
  · norm_num

/-- Claim C8: `Week_Start` is 256 exactly when the parsed date is a
Monday, `Month_Start` exactly on the first day of a month, `Year_Start`
exactly on 1 January, each 0 otherwise; on 2024-01-01 all three flags are
256 and on 2024-01-02 all three are 0. -/
theorem c8_time_flags :
    (∀ r : RawDaily,
      ((derive_time_features r).Week_Start = 256 ↔ day_name r.time = "Monday")
      ∧ ((derive_time_features r).Week_Start = 256 ∨ (derive_time_features r).Week_Start = 0)
      ∧ ((derive_time_features r).Month_Start = 256 ↔ r.time.day = 1)
      ∧ ((derive_time_features r).Month_Start = 256 ∨ (derive_time_features r).Month_Start = 0)
      ∧ ((derive_time_features r).Year_Start = 256 ↔ (r.time.month = 1 ∧ r.time.day = 1))
      ∧ ((derive_time_features r).Year_Start = 256 ∨ (derive_time_features r).Year_Start = 0))
    ∧ ((derive_time_features c8_jan1).Week_Start = 256
       ∧ (derive_time_features c8_jan1).Month_Start = 256
       ∧ (derive_time_features c8_jan1).Year_Start = 256)
    ∧ ((derive_time_features c8_jan2).Week_Start = 0
       ∧ (derive_time_features c8_jan2).Month_Start = 0
       ∧ (derive_time_features c8_jan2).Year_Start = 0) := by
  refine ⟨?_, by decide, by decide⟩
  intro r
  unfold derive_time_features
  dsimp only
  refine ⟨?_, ?_, ?_, ?_, ?_, ?_⟩
  · by_cases h : day_name r.time = "Monday" <;> simp [h]
  · by_cases h : day_name r.time = "Monday" <;> simp [h]
  · by_cases h : r.time.day = 1 <;> simp [h]
  · by_cases h : r.time.day = 1 <;> simp [h]
  · by_cases h : r.time.month = 1 ∧ r.time.day = 1 <;> simp [h]
  · by_cases h : r.time.month = 1 ∧ r.time.day = 1 <;> simp [h]

/-- Claim C9: the written CSV has exactly the 8 required columns in order,
no row-index column, and one data row per weekly input row (hence per
distinct (Year, Week_Number) group when the input has one row per
group). -/
theorem c9_finalization (wt : List WeeklyTrendRow) (hne : wt ≠ []) :
    (finalize_and_write wt).header
        = ["in", "out", "Month_Start", "Year_Start", "in_up", "in_down", "out_up", "out_down"]
    ∧ (finalize_and_write wt).header.length = 8
    ∧ (∀ row ∈ (finalize_and_write wt).data, row.length = 8)
    ∧ (finalize_and_write wt).data.length = wt.length
    ∧ ((wt.map (fun w => (w.Year, w.Week_Number))).Nodup →
        (finalize_and_write wt).data.length
          = ((wt.map (fun w => (w.Year, w.Week_Number))).dedup).length) := by
  refine ⟨rfl, rfl, ?_, by simp [finalize_and_write, to_csv], ?_⟩
  · intro row hrow
    simp only [finalize_and_write, to_csv, if_neg Bool.false_ne_true] at hrow
    rcases List.mem_map.mp hrow with ⟨w, hw, rfl⟩
    rfl
  · intro hnd
    rw [List.dedup_eq_self.mpr hnd]
    simp [finalize_and_write, to_csv]

/-- Witness for C3 (amended) at the concrete daily and weekly tables. -/
theorem c3_scaled_quantization_witness :
    (0 < in_max c3_df ∧ 0 < out_max c3_df)
    ∧ (∀ v ∈ out_quant_scaled c3_df c3_ws,
        ∃ u ∈ c3_ws.map (fun w => w.out_mean),
          v = pdCut48 (listMin (c3_ws.map fun w => w.out_mean))
                (listMax (c3_ws.map fun w => w.out_mean)) u * scaling_factor c3_df
          ∧ 1 ≤ pdCut48 (listMin (c3_ws.map fun w => w.out_mean))
                (listMax (c3_ws.map fun w => w.out_mean)) u
          ∧ pdCut48 (listMin (c3_ws.map fun w => w.out_mean))
                (listMax (c3_ws.map fun w => w.out_mean)) u ≤ 48
          ∧ 0 < v) :=
  ⟨⟨by decide, by decide⟩, c3_scaled_quantization c3_df c3_ws (by decide) (by decide)⟩

/-- Witness for C4 at the table with mean series [5, 5, 3], row 2. -/
theorem c4_trend_isolation_witness :
    2 < c4_ws.length
    ∧ ((((split_trend c4_ws).getD 2 default).in_up =
        if 0 < 2 ∧ (c4_ws.getD (2 - 1) default).in_mean < (c4_ws.getD 2 default).in_mean
        then (c4_ws.getD 2 default).in_mean else 0)
      ∧ (((split_trend c4_ws).getD 2 default).in_down =
        if 0 < 2 ∧ (c4_ws.getD 2 default).in_mean < (c4_ws.getD (2 - 1) default).in_mean
        then (c4_ws.getD 2 default).in_mean else 0)
      ∧ (((split_trend c4_ws).getD 2 default).out_up =
        if 0 < 2 ∧ (c4_ws.getD (2 - 1) default).out_mean < (c4_ws.getD 2 default).out_mean
        then (c4_ws.getD 2 default).out_mean else 0)
      ∧ (((split_trend c4_ws).getD 2 default).out_down =
        if 0 < 2 ∧ (c4_ws.getD 2 default).out_mean < (c4_ws.getD (2 - 1) default).out_mean
        then (c4_ws.getD 2 default).out_mean else 0)) :=
  ⟨by decide, c4_trend_isolation c4_ws 2 (by decide)⟩

/-- Witness for C5 at a two-week enriched daily table. -/
theorem c5_weekly_aggregation_witness :
    ((∀ r ∈ c5_rows, r.Year_Start = 0 ∨ r.Year_Start = 256)
      ∧ (∀ r ∈ c5_rows, r.Month_Start = 0 ∨ r.Month_Start = 256))
    ∧ (((aggregate_weekly c5_rows).map wkey).Pairwise keyLt
      ∧ (∀ k : ℕ × ℕ, k ∈ (aggregate_weekly c5_rows).map wkey ↔ ∃ r ∈ c5_rows, rkey r = k)
      ∧ (∀ w ∈ aggregate_weekly c5_rows,
          w.in_mean = ((c5_rows.filter fun r => decide (rkey r = wkey w)).map (fun r => r.in_)).sum
              / (((c5_rows.filter fun r => decide (rkey r = wkey w)).length : ℚ))
          ∧ w.out_mean = ((c5_rows.filter fun r => decide (rkey r = wkey w)).map (fun r => r.out)).sum
              / (((c5_rows.filter fun r => decide (rkey r = wkey w)).length : ℚ))
          ∧ (w.Year_Start = 256 ↔ ∃ r ∈ c5_rows, rkey r = wkey w ∧ r.Year_Start = 256)
          ∧ (w.Year_Start = 0 ∨ w.Year_Start = 256)
          ∧ (w.Month_Start = 256 ↔ ∃ r ∈ c5_rows, rkey r = wkey w ∧ r.Month_Start = 256)
          ∧ (w.Month_Start = 0 ∨ w.Month_Start = 256))) :=
  ⟨⟨by decide, by decide⟩, c5_weekly_aggregation c5_rows (by decide) (by decide)⟩

/-- Witness for C6 at the table with daily maxima 100 and 1000. -/
theorem c6_scaling_factor_witness :
    c6_df ≠ []
    ∧ ((∃ M, M ∈ c6_df.map (fun r => r.out) ∧ (∀ r ∈ c6_df, r.out ≤ M)
        ∧ ∃ N, N ∈ c6_df.map (fun r => r.in_) ∧ (∀ r ∈ c6_df, r.in_ ≤ N)
        ∧ scaling_factor c6_df = M / N)
      ∧ scaling_factor c6_df = 10) :=
  ⟨by decide, c6_scaling_factor c6_df (by decide)⟩

/-- Witness for C9 at a two-week weekly table with distinct keys. -/
theorem c9_finalization_witness :
    c9_wt ≠ []
    ∧ ((finalize_and_write c9_wt).header
        = ["in", "out", "Month_Start", "Year_Start", "in_up", "in_down", "out_up", "out_down"]
      ∧ (finalize_and_write c9_wt).header.length = 8
      ∧ (∀ row ∈ (finalize_and_write c9_wt).data, row.length = 8)
      ∧ (finalize_and_write c9_wt).data.length = c9_wt.length
      ∧ ((c9_wt.map (fun w => (w.Year, w.Week_Number))).Nodup →
          (finalize_and_write c9_wt).data.length
            = ((c9_wt.map (fun w => (w.Year, w.Week_Number))).dedup).length)) :=
  ⟨by decide, c9_finalization c9_wt (by decide)⟩

/-- Witness for C10 at the table with mean series [5, 5, 3], row 2. -/
theorem c10_up_down_exclusive_witness :
    2 < c10_ws.length
    ∧ ((((split_trend c10_ws).getD 2 default).in_up = 0
        ∨ ((split_trend c10_ws).getD 2 default).in_down = 0)
      ∧ (((split_trend c10_ws).getD 2 default).out_up = 0
        ∨ ((split_trend c10_ws).getD 2 default).out_down = 0)) :=
  ⟨by decide, c10_up_down_exclusive c10_ws 2 (by decide)⟩

/-- C1, evaluated at the failing input: two files with identical headers
and one data row each.  `pd.read_csv` has already consumed the second
file's repeated header as column names, so `iloc[1:]` removes its genuine
data row: the combined table has 1 row where the claim requires
N + M = 2. -/
theorem c1_header_dedup_eval :
    load_and_clean [c1_file1, c1_file2] = Except.ok [[1, 2, 3]]
    ∧ c1_file1.rows.length = 1 ∧ c1_file2.rows.length = 1 :=
  ⟨rfl, rfl, rfl⟩

/-- C2 counterexample: on an empty input directory the ingestion stage
raises the concatenation error instead of returning an empty table. -/
theorem c2_counterexample :
    load_and_clean ([] : List CSVFile) = Except.error "No objects to concatenate" :=
  rfl

/-- C2 (amended): when no file matches the input pattern, `load_and_clean`
fails with the pandas empty-concatenation error; it does not produce an
empty combined table. -/
theorem c2_missing_input (files : List CSVFile) (h : files = []) :
    load_and_clean files = Except.error "No objects to concatenate" := by
  subst h
  rfl

/-- Witness for C2 (amended) at the empty file list. -/
theorem c2_missing_input_witness :
    ([] : List CSVFile) = []
    ∧ load_and_clean ([] : List CSVFile) = Except.error "No objects to concatenate" :=
  ⟨rfl, c2_missing_input [] rfl⟩

/-- C7, evaluated at the failing input: the second file's first data row
has the nonzero third cell 1/10000 (the 0.0001 of the spec's example), yet
it is missing from the combined table because the unconditional header-skip
drops it before the zero filter runs. -/
theorem c7_zero_filter_eval :
    load_and_clean [c7_file1, c7_file2] = Except.ok [[1, 2, 3], [7, 8, 9]]
    ∧ c7_file2.rows.getD 0 [] = [4, 5, 1/10000] :=
  ⟨rfl, rfl⟩

end NetworkSonification
